import Mathlib

/-!
Verification of the streaming protocol bridge of the DeepSeek browser-automation
gateway (src/api.py and src/deepseek_driver.py).

The development has two layers, matching the two source files:

* the Patch Decoder, a shallow embedding of
  DeepSeekDriver._process_chunk (src/deepseek_driver.py, lines 438-615):
  per parsed SSE data line it normalizes the payload to a batch of patch
  operations, folds them over the decoder state (fragment type registry plus
  the thinking flag) and produces at most one outbound OpenAI-style chunk;

* the Admission Queue / Worker / Gateway layer, a shallow embedding of
  API.worker (src/api.py, lines 142-181), of the non-streaming accumulation
  loop of chat_completions (src/api.py, lines 51-95), and of
  API.stream_generator (src/api.py, lines 97-127).

Machine-level caveats of the embedding are stated next to each definition.
-/

set_option autoImplicit false

namespace Bridge

/-! ### JSON values as accessed by the decoder

The decoder only inspects a JSON value through: string equality tests,
isinstance list / dict tests, the dict projections used by the code
(the keys "p", "o", "v" of an operation, the keys "type" and "content" of a
fragment descriptor), and str() coercion.  `MVal` records exactly those
observations.  The "p", "o", "type" projections are restricted to
string-or-absent (a JSON null key behaves like an absent key under dict.get,
and non-string values in those positions make the Python code raise inside
the per-chunk try block, which aborts the rest of the chunk with no emission,
so they can never contribute an emission).  The "content" projection is
likewise restricted to string-or-absent: a present non-string content makes
the += in the source raise, again aborting the chunk with no emission. -/

inductive MVal where
  /-- a JSON string -/
  | str (s : String) : MVal
  /-- JSON null -/
  | mnull : MVal
  /-- a JSON array -/
  | list (xs : List MVal) : MVal
  /-- a JSON object, recorded through the five projections the decoder reads:
  get("p"), get("o"), get("v"), get("type"), get("content"). -/
  | mdict (p o : Option String) (v : Option MVal) (ty content : Option String) : MVal
  /-- any other JSON value (number, boolean, ...) -/
  | other : MVal

/-- String coercion str(x) as used by content += str(item_v)
(src/deepseek_driver.py lines 578 and 582).  Python renders non-string values
textually; the exact rendering of lists, dicts and other values is abbreviated
here because no claim depends on it, only on whether the text is forwarded. -/
def pyStr : MVal → String
  | .str s => s
  | .mnull => "None"
  | .list _ => "<list>"
  | .mdict _ _ _ _ _ => "<dict>"
  | .other => "<value>"

/-- Coercion of item.get("v"): an absent "v" key yields Python None. -/
def pyStrOpt : Option MVal → String
  | some v => pyStr v
  | none => "None"

/-- Test item_v == "FINISHED" and the like: true only for the JSON string. -/
def isStrVal (v : Option MVal) (s : String) : Bool :=
  match v with
  | some (.str t) => t == s
  | _ => false

/-! ### Decoder state and settings -/

/-- DecoderState: self.fragment_types_list and self.thinking_active, reset at
the start of DeepSeekDriver.generate_response (src/deepseek_driver.py lines
139-140).  A registry entry is frag.get("type"), so it may be absent. -/
structure DecState where
  fragment_types_list : List (Option String)
  thinking_active : Bool
deriving DecidableEq

/-- The two configuration toggles read once per chunk
(src/deepseek_driver.py lines 444-445). -/
structure DriverSettings where
  anti_censorship : Bool
  send_deepthink : Bool
deriving DecidableEq

/-! ### Emission atoms

The source builds the outbound text of one data line by successive
content += ... statements.  Each append site is recorded here as one atom
tagged with its provenance; the final text of the line is the concatenation
of the atom texts, in order.  This keeps the information-flow claims (search
content never surfaces, thinking content is gated by send_deepthink)
directly statable while the emitted string is recovered by `atomsText`. -/

inductive Atom where
  /-- the opening marker appended when a THINK fragment starts
  (content += "&lt;think&gt;", line 544) -/
  | openThink : Atom
  /-- the closing marker appended when a thinking segment closes
  (content += "&lt;/think&gt;", lines 511, 523, 550) -/
  | closeThink : Atom
  /-- inline initial content of an appended fragment descriptor whose
  registered type is ty (lines 554-561) -/
  | fragInit (ty : Option String) (s : String) : Atom
  /-- a content update addressed to a fragment whose registered type is ty
  (lines 563-586) -/
  | fragUpd (ty : Option String) (s : String) : Atom
  /-- a direct top-level string update, tagged with whether the thinking flag
  was active when it arrived (lines 480-485) -/
  | direct (thinking : Bool) (s : String) : Atom
deriving DecidableEq

/-- The text a given atom contributes to the emitted content. -/
def Atom.text : Atom → String
  | .openThink => "<think>"
  | .closeThink => "</think>"
  | .fragInit _ s => s
  | .fragUpd _ s => s
  | .direct _ s => s

/-- Concatenation of the atom texts, i.e. the value of the content variable
at the end of one data line. -/
def atomsText (l : List Atom) : String :=
  l.foldl (fun s a => s ++ a.text) ""

/-- Accumulator for one data line: the decoder state together with the
content and finish_reason variables of the loop body. -/
structure OpsAcc where
  st : DecState
  atoms : List Atom
  finish : Option String
deriving DecidableEq

/-! ### Fragment appends (src/deepseek_driver.py lines 528-561) -/

/-- The marker a fragment append contributes (lines 541-551): a THINK
fragment opens a thinking segment, a RESPONSE fragment closes an open one;
the markers themselves are emitted only when send_deepthink is set. -/
def fragMarkerAtoms (send thinking : Bool) (fty : Option String) : List Atom :=
  if fty == some "THINK" then (if send then [Atom.openThink] else [])
  else if (fty == some "RESPONSE") && thinking then (if send then [Atom.closeThink] else [])
  else []

/-- The thinking flag after a fragment append (lines 541-551). -/
def fragNewThinking (thinking : Bool) (fty : Option String) : Bool :=
  if fty == some "THINK" then true
  else if (fty == some "RESPONSE") && thinking then false
  else thinking

/-- The inline initial content a fragment append contributes (lines
553-561): THINK content gated by send_deepthink, SEARCH content always
discarded, everything else forwarded. -/
def fragInlineAtoms (send : Bool) (fty : Option String) : Option String → List Atom
  | some c =>
    if fty == some "THINK" then (if send then [Atom.fragInit fty c] else [])
    else if fty == some "SEARCH" then []
    else [Atom.fragInit fty c]
  | none => []

/-- Processing of one element of a fragments APPEND list.  Non-dict elements
are skipped (isinstance check, line 532).  A dict element has its type
appended to the registry, may open or close the thinking segment, and may
carry inline initial content. -/
def processFrag (send : Bool) (acc : OpsAcc) (frag : MVal) : OpsAcc :=
  match frag with
  | .mdict _ _ _ fty fcontent =>
    { st := ⟨acc.st.fragment_types_list ++ [fty], fragNewThinking acc.st.thinking_active fty⟩
      atoms := acc.atoms ++ fragMarkerAtoms send acc.st.thinking_active fty ++
        fragInlineAtoms send fty fcontent
      finish := acc.finish }
  | _ => acc

/-- The loop over the fragments list (line 531). -/
def processFrags (send : Bool) (acc : OpsAcc) : List MVal → OpsAcc
  | [] => acc
  | f :: fs => processFrags send (processFrag send acc f) fs

/-! ### Content-update paths (src/deepseek_driver.py lines 563-586) -/

/-- Splitting a character list at every '/' occurrence, exactly like
Python's str.split("/"): adjacent separators yield empty parts and the empty
string yields one empty part. -/
def splitSlash : List Char → List (List Char)
  | [] => [[]]
  | c :: rest =>
    let r := splitSlash rest
    if c = '/' then [] :: r
    else
      match r with
      | h :: t => (c :: h) :: t
      | [] => [[c]]

/-- The path test of the content-update branch: item_p truthy, starting with
"response/fragments/" or "fragments/", and ending with "/content"
(startswith and endswith tests of src/deepseek_driver.py line 564). -/
def isContentPath (ps : String) : Bool :=
  (List.isPrefixOf "response/fragments/".data ps.data ||
   List.isPrefixOf "fragments/".data ps.data) &&
  List.isSuffixOf "/content".data ps.data

/-- Python's int() on a string, restricted to an optional leading minus sign
followed by decimal digits.  Python additionally strips whitespace and
accepts a leading plus sign or underscore grouping; such exotic paths parse
to an index here as a no-op, while in Python they resolve to a registry
lookup that goes through the identical type dispatch, so no claim
distinguishes the two. -/
def pyIntLite (cs : List Char) : Option Int :=
  match cs with
  | '-' :: rest =>
    if !rest.isEmpty && rest.all Char.isDigit then
      some (-(Int.ofNat (rest.foldl (fun n c => n * 10 + (c.toNat - '0'.toNat)) 0)))
    else none
  | _ =>
    if !cs.isEmpty && cs.all Char.isDigit then
      some (Int.ofNat (cs.foldl (fun n c => n * 10 + (c.toNat - '0'.toNat)) 0))
    else none

/-- Index extraction of src/deepseek_driver.py lines 566-571:
parts = path.split("/"); int(parts[2]) when parts[0] == "response", else
int(parts[1]).  A missing part (IndexError) or a failed int() (ValueError)
is caught by the source and yields no update. -/
def contentPathIndex (ps : String) : Option Int :=
  let parts := splitSlash ps.data
  let idx? := if parts.head? == some "response".data then parts.get? 2 else parts.get? 1
  match idx? with
  | some s => pyIntLite s
  | none => none

/-- The guarded registry access of lines 573-574: the source checks
index < len(list) and then evaluates list[index] with Python indexing
semantics, where a negative index counts from the end and an out-of-range
negative index raises IndexError, caught by the enclosing except. -/
def registryLookup (l : List (Option String)) (i : Int) : Option (Option String) :=
  if i < (l.length : Int) then
    if 0 ≤ i then l.get? i.toNat
    else if 0 ≤ (l.length : Int) + i then l.get? ((l.length : Int) + i).toNat
    else none
  else none

/-! ### One operation of a batch (src/deepseek_driver.py lines 494-591) -/

/-- The closing marker emitted when a status operation (FINISHED, or
CONTENT_FILTER with suppression on) finds the thinking segment open
(lines 509-512 and 521-524). -/
def statusCloseAtoms (send thinking : Bool) : List Atom :=
  if thinking && send then [Atom.closeThink] else []

/-- The accumulator after a status operation closed the stream: thinking
cleared, possible closing marker appended, finish_reason set to stop. -/
def statusStopAcc (send : Bool) (acc : OpsAcc) : OpsAcc :=
  { st := ⟨acc.st.fragment_types_list, false⟩
    atoms := acc.atoms ++ statusCloseAtoms send acc.st.thinking_active
    finish := some "stop" }

/-- The atoms a content-update operation contributes (lines 563-586): the
addressed index is parsed from the path, looked up in the registry with
Python indexing semantics, and the update is forwarded unless the registered
type is SEARCH, or is THINK with send_deepthink unset; a parse failure or a
missing registry entry drops the operation silently. -/
def contentUpdateAtoms (send : Bool) (registry : List (Option String)) (ps : String)
    (itemV : Option MVal) : List Atom :=
  if isContentPath ps then
    match contentPathIndex ps with
    | some i =>
      match registryLookup registry i with
      | some fty =>
        if fty == some "THINK" then
          (if send then [Atom.fragUpd fty (pyStrOpt itemV)] else [])
        else if fty == some "SEARCH" then []
        else [Atom.fragUpd fty (pyStrOpt itemV)]
      | none => []
    | none => []
  else []

/-- Processing of one operation of the normalized batch.  Returns the updated
accumulator and the should_stop_processing flag (true exactly on the
anti-censorship break, lines 513-514).  Non-dict items are skipped
(line 495).  The trailing fragment-status branch (lines 589-591) and any
unrecognized path fall through with no effect; the content-update branch
never touches the state or the finish_reason. -/
def processOp (s : DriverSettings) (acc : OpsAcc) (item : MVal) : OpsAcc × Bool :=
  match item with
  | .mdict itemP _itemO itemV _ _ =>
    if s.anti_censorship && (itemP == some "status") && isStrVal itemV "CONTENT_FILTER" then
      (statusStopAcc s.send_deepthink acc, true)
    else if itemP == some "status" then
      (if isStrVal itemV "FINISHED" then statusStopAcc s.send_deepthink acc else acc, false)
    else if (itemP == some "fragments" || itemP == some "response/fragments")
        && (_itemO == some "APPEND") then
      (match itemV with
       | some (.list frags) => processFrags s.send_deepthink acc frags
       | _ => acc, false)
    else
      match itemP with
      | some ps =>
        ({ acc with atoms := acc.atoms ++
            contentUpdateAtoms s.send_deepthink acc.st.fragment_types_list ps itemV }, false)
      | none => (acc, false)
  | _ => (acc, false)

/-- The loop over a batch of operations, honoring the break of the
anti-censorship branch. -/
def processOps (s : DriverSettings) (acc : OpsAcc) : List MVal → OpsAcc
  | [] => acc
  | item :: rest =>
    let r := processOp s acc item
    if r.2 then r.1 else processOps s r.1 rest

/-! ### One parsed data line (src/deepseek_driver.py lines 456-610) -/

/-- The atoms a direct top-level string update contributes (lines 479-485):
while the thinking flag is active the text is gated by send_deepthink,
otherwise it is forwarded as is. -/
def directAtoms (send thinking : Bool) (sv : String) : List Atom :=
  if thinking then (if send then [Atom.direct true sv] else []) else [Atom.direct false sv]

/-- Processing of one parsed JSON data line from the start state of one line
(content empty, finish_reason None).  Normalization (lines 461-489): if the
key v is absent nothing happens; if p is None, or p equals "response" with
o equal to "BATCH", a list v is the batch itself and a string v is a direct
content update; otherwise the single operation constructed from the line's
own p, o, v is processed. -/
def processData (s : DriverSettings) (st : DecState) (d : MVal) : OpsAcc :=
  let acc0 : OpsAcc := ⟨st, [], none⟩
  match d with
  | .mdict dp dop (some dv) _ _ =>
    if dp == none || ((dp == some "response") && (dop == some "BATCH")) then
      match dv with
      | .list items => processOps s acc0 items
      | .str sv => { acc0 with atoms := directAtoms s.send_deepthink st.thinking_active sv }
      | _ => acc0
    else
      processOps s acc0 [MVal.mdict dp dop (some dv) none none]
  | _ => acc0

/-- Processing of a sequence of parsed data lines, threading the decoder
state and recording each line's atoms and finish_reason.  Lines that are not
SSE data lines, the [DONE] marker, and lines whose JSON parse fails are
skipped by the source with no state change, so they simply do not appear in
the list. -/
def processDatas (s : DriverSettings) (st : DecState) : List MVal → DecState × List (List Atom × Option String)
  | [] => (st, [])
  | d :: ds =>
    let r := processData s st d
    let rest := processDatas s r.st ds
    (rest.1, (r.atoms, r.finish) :: rest.2)

/-! ### Emitted chunks and the OutputChannel vocabulary

Every item the Worker puts on a response queue is either an SSE data string
or the None sentinel (src/api.py lines 163, 175, 178).  The data strings come
in three shapes, reflected as constructors: a normal OpenAI-style chunk with
one choices entry (built at src/deepseek_driver.py lines 596-610), the
structured error object the worker builds on a per-item exception
(src/api.py lines 167-175, an object with only an "error" key, hence without
any choices entry), and the plain error object the driver itself may yield
when its upstream tap fails (src/deepseek_driver.py lines 179 and 267-269,
also without a choices entry). -/

/-- The structured error body built by the worker's exception handler. -/
structure ErrorBody where
  message : String
  etype : String
  param : Option String
  code : Option String
deriving DecidableEq

/-- One item written to an OutputChannel. -/
inductive QMsg where
  /-- an SSE chunk with a single choices entry: the delta's content key is
  present iff content is some, and finish_reason carries finish (possibly
  null) -/
  | chunk (content : Option String) (finish : Option String) : QMsg
  /-- the worker's structured per-item error frame; carries no choices -/
  | errorFrame (e : ErrorBody) : QMsg
  /-- a driver-yielded upstream error frame; carries no choices -/
  | rawError (s : String) : QMsg
  /-- the None termination sentinel -/
  | sentinel : QMsg
deriving DecidableEq

/-- The finish_reason a frame exposes to a consumer reading
choices[0].get("finish_reason"): frames without a choices entry expose
nothing. -/
def QMsg.finishReason : QMsg → Option String
  | .chunk _ f => f
  | _ => none

/-- Truthiness of the content and finish_reason strings
(the if content or finish_reason guard, src/deepseek_driver.py line 596). -/
def pyTruthyOpt : Option String → Bool
  | none => false
  | some s => s != ""

/-- The emission of one processed data line: a chunk is put iff content or
finish_reason is truthy, with the content key present iff content is
non-empty (src/deepseek_driver.py lines 596-610). -/
def lineEmission (e : List Atom × Option String) : Option QMsg :=
  let c := atomsText e.1
  if (c != "") || pyTruthyOpt e.2 then
    some (QMsg.chunk (if c == "" then none else some c) e.2)
  else none

/-- The chunk frames the decoder sends toward the response queue for a
sequence of parsed data lines, started from state st. -/
def decoderMsgs (s : DriverSettings) (st : DecState) (ds : List MVal) : List QMsg :=
  ((processDatas s st ds).2).filterMap lineEmission

/-! ### The Worker (src/api.py lines 142-181)

One work item is modeled by the observable behavior of its generation
session: the sequence of frames the async generator yields, whether it ends
by raising an exception, and the abort schedule.  The worker's per-item loop
checks the abort event once per received frame, before forwarding it
(lines 160-163); abortFrom = some k means the abort event is observed set at
every per-frame check with index at least k (the signal is monotonic,
write-once), and none means it is never set during the item. -/

/-- A frame yielded by DeepSeekDriver.generate_response: either a decoder
chunk or a driver-level upstream error frame. -/
inductive Yield where
  | chunk (content : Option String) (finish : Option String) : Yield
  | rawError (s : String) : Yield
deriving DecidableEq

/-- The queue message a forwarded yield becomes. -/
def Yield.toMsg : Yield → QMsg
  | .chunk c f => QMsg.chunk c f
  | .rawError s => QMsg.rawError s

/-- Observable behavior of one generation: the yielded frames, then an
optional terminal exception (message err raised after the yields). -/
structure GenSpec where
  yields : List Yield
  err : Option String
deriving DecidableEq

/-- One dequeued work item together with its abort schedule. -/
structure ScheduledItem where
  gen : GenSpec
  abortFrom : Option Nat
deriving DecidableEq

/-- Whether a per-frame abort check ever observes the signal set, i.e.
whether the forwarding loop exits through the break of src/api.py line 162.
This requires the generator to still be yielding at check index k. -/
def aborted (it : ScheduledItem) : Bool :=
  match it.abortFrom with
  | some k => decide (k < it.gen.yields.length)
  | none => false

/-- The frames the worker forwards: every yield received before a check
observes the abort signal (src/api.py lines 158-163). -/
def forwarded (it : ScheduledItem) : List QMsg :=
  (match it.abortFrom with
   | none => it.gen.yields
   | some k => it.gen.yields.take k).map Yield.toMsg

/-- The complete write sequence of one work item on its OutputChannel:
the forwarded frames; then, if the generator raised and the loop was not
already broken by an abort, the single structured error frame built by the
except branch (src/api.py lines 165-175); then, unconditionally, the None
sentinel from the finally branch (line 178). -/
def runItem (it : ScheduledItem) : List QMsg :=
  forwarded it ++
    (if aborted it then []
     else match it.gen.err with
       | some e => [QMsg.errorFrame ⟨e, "internal_error", none, none⟩]
       | none => []) ++
    [QMsg.sentinel]

/-- The global write trace of the worker loop run over a queue of items,
tagging every write with the index of the item (hence of the OutputChannel)
it goes to.  The loop body finishes one item completely, sentinel included,
before dequeuing the next (src/api.py lines 145-178). -/
def workerTraceFrom (m : Nat) : List ScheduledItem → List (Nat × QMsg)
  | [] => []
  | it :: rest => (runItem it).map (fun w => (m, w)) ++ workerTraceFrom (m + 1) rest

/-- The worker trace with channels numbered from 0 in enqueue order. -/
def workerTrace (items : List ScheduledItem) : List (Nat × QMsg) :=
  workerTraceFrom 0 items

/-- The writes a given channel receives, in order, from a trace. -/
def channelWrites (tr : List (Nat × QMsg)) (i : Nat) : List QMsg :=
  (tr.filter (fun p => p.1 == i)).map Prod.snd

/-- Whether a trace contains any write to channel j. -/
def hasWriteTo (j : Nat) (tr : List (Nat × QMsg)) : Bool :=
  tr.any (fun p => p.1 == j)

/-- Whether a trace contains the termination sentinel of channel i. -/
def hasSentinelOf (i : Nat) (tr : List (Nat × QMsg)) : Bool :=
  tr.any (fun p => p.1 == i && p.2 == QMsg.sentinel)

/-! ### The Gateway (src/api.py lines 51-127) -/

/-- What the streaming generator emits to the HTTP client when the client
never disconnects and the task is not cancelled: every queue item is yielded
verbatim until the sentinel, which becomes the final [DONE] marker
(src/api.py lines 108-114). -/
inductive StreamItem where
  | frame (m : QMsg) : StreamItem
  | doneMarker : StreamItem
deriving DecidableEq

/-- The relay loop of API.stream_generator on a given channel content.
The source blocks if the list is exhausted without a sentinel; the worker
always writes the sentinel, so the empty tail case never arises. -/
def streamOut : List QMsg → List StreamItem
  | [] => []
  | QMsg.sentinel :: _ => [StreamItem.doneMarker]
  | m :: rest => StreamItem.frame m :: streamOut rest

/-- One step of the non-streaming accumulation loop (src/api.py lines 56-73):
a frame with a choices entry appends its delta content (when the content key
is present) and overwrites finish_reason with choices[0].get("finish_reason"),
null included; frames without a choices entry change nothing. -/
def accumStep (acc : String × Option String) : QMsg → String × Option String
  | QMsg.chunk mc mf => (acc.1 ++ mc.getD "", mf)
  | _ => acc

/-- The channel content the accumulation loop actually consumes: everything
before the first sentinel (the loop breaks at the first None, line 58-59). -/
def preSentinel (msgs : List QMsg) : List QMsg :=
  msgs.takeWhile (fun m => !(m == QMsg.sentinel))

/-- Python's x or "stop" default (src/api.py line 87): None and the empty
string are falsy. -/
def pyOr (x : Option String) (d : String) : String :=
  match x with
  | none => d
  | some s => if s == "" then d else s

/-- The non-streaming FinalResponse built from a channel's writes: the
accumulated content and the defaulted finish_reason. -/
def finalResponse (msgs : List QMsg) : String × String :=
  let r := (preSentinel msgs).foldl accumStep ("", none)
  (r.1, pyOr r.2 "stop")

/-! ### Specification-side descriptions of the accumulator

These two definitions follow the words of the spec (section 3,
FinalResponse) and of claim C7, for comparison with the accumulator embedded
from the source. -/

/-- The finish_reason values of the frames that carry a choices entry. -/
def chunkFinishes (msgs : List QMsg) : List (Option String) :=
  msgs.filterMap (fun m => match m with
    | QMsg.chunk _ mf => some mf
    | _ => none)

/-- The delta contents of the frames that carry a choices entry, absent
content keys reading as empty. -/
def chunkContents (msgs : List QMsg) : List String :=
  msgs.filterMap (fun m => match m with
    | QMsg.chunk mc _ => some (mc.getD "")
    | _ => none)

/-- Modelled from the spec: the last non-null finishReason among the frames,
as claim C7 and section 3 of the spec describe the FinalResponse. -/
def lastNonNullFinish (msgs : List QMsg) : Option String :=
  ((chunkFinishes msgs).reduceOption).getLast?

/-- The finish_reason of the last frame carrying a choices entry, null
included: this is what the overwriting loop of the source computes. -/
def lastChoicesFinish (msgs : List QMsg) : Option String :=
  ((chunkFinishes msgs).getLast?).getD none

/-! ### The worker-to-driver call (src/api.py lines 151-157 against
src/deepseek_driver.py line 131)

Python binds keyword arguments when the async generator function is called;
a keyword that does not name a parameter raises TypeError immediately, before
any iteration. -/

/-- The parameter names of DeepSeekDriver.generate_response
(src/deepseek_driver.py line 131), self excluded. -/
def generateResponseParams : List String :=
  ["message", "model", "stream", "temperature", "top_p"]

/-- The keyword arguments API.worker passes to driver.generate_response
(src/api.py lines 151-157). -/
def workerGenerateResponseKwargs : List String :=
  ["message", "model", "stream", "temperature", "top_p", "abort_event"]

/-! ### Provenance predicates on atoms -/

/-- Whether an atom carries content sourced from a fragment whose registered
type is SEARCH. -/
def searchSourced : Atom → Bool
  | .fragInit ty _ => ty == some "SEARCH"
  | .fragUpd ty _ => ty == some "SEARCH"
  | _ => false

/-- Whether an atom is thinking-related: an opening or closing marker,
content sourced from a THINK fragment, or a direct update that arrived while
the thinking flag was active. -/
def thinkSourced : Atom → Bool
  | .openThink => true
  | .closeThink => true
  | .fragInit ty _ => ty == some "THINK"
  | .fragUpd ty _ => ty == some "THINK"
  | .direct thinking _ => thinking

/-- All atoms of a line avoid SEARCH-sourced content. -/
def noSearch (l : List Atom) : Bool := l.all (fun a => !searchSourced a)

/-- All atoms of a line avoid thinking-related content. -/
def noThink (l : List Atom) : Bool := l.all (fun a => !thinkSourced a)

lemma fragMarkerAtoms_noSearch (send thinking : Bool) (fty : Option String) :
    noSearch (fragMarkerAtoms send thinking fty) = true := by
  unfold fragMarkerAtoms
  split <;> [skip; split] <;> first
    | (split <;> simp [noSearch, searchSourced])
    | simp [noSearch, searchSourced]

lemma fragInlineAtoms_noSearch (send : Bool) (fty : Option String) (ct : Option String) :
    noSearch (fragInlineAtoms send fty ct) = true := by
  cases ct with
  | none => simp [fragInlineAtoms, noSearch]
  | some c =>
    by_cases hT : fty = some "THINK"
    · subst hT
      cases send <;> simp [fragInlineAtoms, noSearch, searchSourced]
    · by_cases hS : fty = some "SEARCH"
      · subst hS
        simp [fragInlineAtoms, noSearch, hT]
      · simp [fragInlineAtoms, noSearch, searchSourced, hT, hS]

lemma statusCloseAtoms_noSearch (send thinking : Bool) :
    noSearch (statusCloseAtoms send thinking) = true := by
  unfold statusCloseAtoms
  split <;> simp [noSearch, searchSourced]

lemma contentUpdateAtoms_noSearch (send : Bool) (registry : List (Option String))
    (ps : String) (itemV : Option MVal) :
    noSearch (contentUpdateAtoms send registry ps itemV) = true := by
  unfold contentUpdateAtoms
  split
  · split
    · split
      · rename_i fty _
        by_cases hT : fty = some "THINK"
        · subst hT
          cases send <;> simp [noSearch, searchSourced]
        · by_cases hS : fty = some "SEARCH"
          · subst hS
            simp [noSearch, hT]
          · simp [noSearch, searchSourced, hT, hS]
      · simp [noSearch]
    · simp [noSearch]
  · simp [noSearch]

lemma noSearch_append (a b : List Atom) :
    noSearch (a ++ b) = (noSearch a && noSearch b) := List.all_append

lemma processFrag_noSearch (send : Bool) (acc : OpsAcc) (f : MVal)
    (h : noSearch acc.atoms = true) : noSearch (processFrag send acc f).atoms = true := by
  cases f <;> simp only [processFrag] <;> try exact h
  simp [noSearch_append, h, fragMarkerAtoms_noSearch, fragInlineAtoms_noSearch]

lemma processFrags_noSearch (send : Bool) :
    ∀ (fs : List MVal) (acc : OpsAcc), noSearch acc.atoms = true →
      noSearch (processFrags send acc fs).atoms = true := by
  intro fs
  induction fs with
  | nil => intro acc h; exact h
  | cons f fs ih => intro acc h; exact ih _ (processFrag_noSearch send acc f h)

lemma processOp_noSearch (s : DriverSettings) (acc : OpsAcc) (item : MVal)
    (h : noSearch acc.atoms = true) : noSearch (processOp s acc item).1.atoms = true := by
  cases item <;> simp only [processOp] <;> try exact h
  split
  · simp [statusStopAcc, noSearch_append, h, statusCloseAtoms_noSearch]
  · split
    · split
      · simp [statusStopAcc, noSearch_append, h, statusCloseAtoms_noSearch]
      · exact h
    · split
      · split
        · exact processFrags_noSearch _ _ _ h
        · exact h
      · split
        · simp [noSearch_append, h, contentUpdateAtoms_noSearch]
        · exact h

lemma processOps_noSearch (s : DriverSettings) :
    ∀ (items : List MVal) (acc : OpsAcc), noSearch acc.atoms = true →
      noSearch (processOps s acc items).atoms = true := by
  intro items
  induction items with
  | nil => intro acc h; exact h
  | cons item rest ih =>
    intro acc h
    simp only [processOps]
    split
    · exact processOp_noSearch s acc item h
    · exact ih _ (processOp_noSearch s acc item h)

lemma directAtoms_noSearch (send thinking : Bool) (sv : String) :
    noSearch (directAtoms send thinking sv) = true := by
  unfold directAtoms
  split
  · split <;> simp [noSearch, searchSourced]
  · simp [noSearch, searchSourced]

lemma processData_noSearch (s : DriverSettings) (st : DecState) (d : MVal) :
    noSearch (processData s st d).atoms = true := by
  have h0 : noSearch ((⟨st, [], none⟩ : OpsAcc).atoms) = true := by simp [noSearch]
  cases d with
  | mdict dp dop dv ty ct =>
    cases dv with
    | none => exact h0
    | some dv =>
      simp only [processData]
      split
      · cases dv with
        | str sv => simpa [noSearch] using directAtoms_noSearch s.send_deepthink st.thinking_active sv
        | list items => exact processOps_noSearch s _ _ h0
        | mnull => exact h0
        | mdict p o v ty2 ct2 => exact h0
        | other => exact h0
      · exact processOps_noSearch s _ _ h0
  | str sv => exact h0
  | mnull => exact h0
  | list xs => exact h0
  | other => exact h0

lemma processDatas_noSearch (s : DriverSettings) :
    ∀ (ds : List MVal) (st : DecState),
      noSearch (((processDatas s st ds).2.map Prod.fst).flatten) = true := by
  intro ds
  induction ds with
  | nil => intro st; simp [processDatas, noSearch]
  | cons d ds ih =>
    intro st
    simp only [processDatas, List.map_cons, List.flatten_cons]
    rw [noSearch_append]
    simp [processData_noSearch, ih]

lemma fragMarkerAtoms_off (thinking : Bool) (fty : Option String) :
    fragMarkerAtoms false thinking fty = [] := by
  unfold fragMarkerAtoms
  split
  · rfl
  · split <;> rfl

lemma fragInlineAtoms_noThink (fty : Option String) (ct : Option String) :
    noThink (fragInlineAtoms false fty ct) = true := by
  cases ct with
  | none => simp [fragInlineAtoms, noThink]
  | some c =>
    by_cases hT : fty = some "THINK"
    · subst hT
      simp [fragInlineAtoms, noThink]
    · by_cases hS : fty = some "SEARCH"
      · subst hS
        simp [fragInlineAtoms, noThink, hT]
      · simp [fragInlineAtoms, noThink, thinkSourced, hT, hS]

lemma statusCloseAtoms_off (thinking : Bool) : statusCloseAtoms false thinking = [] := by
  unfold statusCloseAtoms
  simp

lemma contentUpdateAtoms_noThink (registry : List (Option String)) (ps : String)
    (itemV : Option MVal) :
    noThink (contentUpdateAtoms false registry ps itemV) = true := by
  unfold contentUpdateAtoms
  split
  · split
    · split
      · rename_i fty _
        by_cases hT : fty = some "THINK"
        · subst hT
          simp [noThink]
        · by_cases hS : fty = some "SEARCH"
          · subst hS
            simp [noThink, hT]
          · simp [noThink, thinkSourced, hT, hS]
      · simp [noThink]
    · simp [noThink]
  · simp [noThink]

lemma directAtoms_noThink (thinking : Bool) (sv : String) :
    noThink (directAtoms false thinking sv) = true := by
  unfold directAtoms
  split
  · simp [noThink]
  · simp [noThink, thinkSourced]

lemma noThink_append (a b : List Atom) :
    noThink (a ++ b) = (noThink a && noThink b) := List.all_append

lemma processFrag_noThink (acc : OpsAcc) (f : MVal)
    (h : noThink acc.atoms = true) : noThink (processFrag false acc f).atoms = true := by
  cases f <;> simp only [processFrag] <;> try exact h
  simp [noThink_append, h, fragMarkerAtoms_off, fragInlineAtoms_noThink]

lemma processFrags_noThink :
    ∀ (fs : List MVal) (acc : OpsAcc), noThink acc.atoms = true →
      noThink (processFrags false acc fs).atoms = true := by
  intro fs
  induction fs with
  | nil => intro acc h; exact h
  | cons f fs ih => intro acc h; exact ih _ (processFrag_noThink acc f h)

lemma processOp_noThink (s : DriverSettings) (hs : s.send_deepthink = false)
    (acc : OpsAcc) (item : MVal)
    (h : noThink acc.atoms = true) : noThink (processOp s acc item).1.atoms = true := by
  cases item <;> simp only [processOp] <;> try exact h
  split
  · simp [statusStopAcc, hs, noThink_append, h, statusCloseAtoms_off]
  · split
    · split
      · simp [statusStopAcc, hs, noThink_append, h, statusCloseAtoms_off]
      · exact h
    · split
      · split
        · rw [hs]
          exact processFrags_noThink _ _ h
        · exact h
      · split
        · rw [hs]
          simp [noThink_append, h, contentUpdateAtoms_noThink]
        · exact h

lemma processOps_noThink (s : DriverSettings) (hs : s.send_deepthink = false) :
    ∀ (items : List MVal) (acc : OpsAcc), noThink acc.atoms = true →
      noThink (processOps s acc items).atoms = true := by
  intro items
  induction items with
  | nil => intro acc h; exact h
  | cons item rest ih =>
    intro acc h
    simp only [processOps]
    split
    · exact processOp_noThink s hs acc item h
    · exact ih _ (processOp_noThink s hs acc item h)

lemma processData_noThink (s : DriverSettings) (hs : s.send_deepthink = false)
    (st : DecState) (d : MVal) : noThink (processData s st d).atoms = true := by
  have h0 : noThink ((⟨st, [], none⟩ : OpsAcc).atoms) = true := by simp [noThink]
  cases d with
  | mdict dp dop dv ty ct =>
    cases dv with
    | none => exact h0
    | some dv =>
      simp only [processData]
      split
      · cases dv with
        | str sv =>
          rw [hs]
          simpa [noThink] using directAtoms_noThink st.thinking_active sv
        | list items => exact processOps_noThink s hs _ _ h0
        | mnull => exact h0
        | mdict p o v ty2 ct2 => exact h0
        | other => exact h0
      · exact processOps_noThink s hs _ _ h0
  | str sv => exact h0
  | mnull => exact h0
  | list xs => exact h0
  | other => exact h0

lemma processDatas_noThink (s : DriverSettings) (hs : s.send_deepthink = false) :
    ∀ (ds : List MVal) (st : DecState),
      noThink (((processDatas s st ds).2.map Prod.fst).flatten) = true := by
  intro ds
  induction ds with
  | nil => intro st; simp [processDatas, noThink]
  | cons d ds ih =>
    intro st
    simp only [processDatas, List.map_cons, List.flatten_cons]
    rw [noThink_append]
    simp [processData_noThink s hs, ih]

lemma processOps_break (s : DriverSettings) (cf : MVal)
    (hcf : ∀ acc, (processOp s acc cf).2 = true) :
    ∀ (pre : List MVal) (acc : OpsAcc) (post : List MVal),
      processOps s acc (pre ++ cf :: post) = processOps s acc (pre ++ [cf]) := by
  intro pre
  induction pre with
  | nil =>
    intro acc post
    simp only [List.nil_append, processOps]
    simp [hcf acc]
  | cons x xs ih =>
    intro acc post
    simp only [List.cons_append, processOps]
    cases hx : (processOp s acc x).2 with
    | true => simp [hx]
    | false => simp [hx, ih]

lemma processOps_skip (s : DriverSettings) (cf : MVal)
    (hcf : ∀ acc, processOp s acc cf = (acc, false)) :
    ∀ (pre : List MVal) (acc : OpsAcc) (post : List MVal),
      processOps s acc (pre ++ cf :: post) = processOps s acc (pre ++ post) := by
  intro pre
  induction pre with
  | nil =>
    intro acc post
    simp only [List.nil_append, processOps]
    simp [hcf acc]
  | cons x xs ih =>
    intro acc post
    simp only [List.cons_append, processOps]
    cases hx : (processOp s acc x).2 with
    | true => simp [hx]
    | false => simp [hx, ih]

/-! ### Helper lemmas about the worker trace -/

lemma sentinel_mem_runItem (it : ScheduledItem) : QMsg.sentinel ∈ runItem it := by
  simp [runItem]

lemma count_sentinel_map_toMsg (l : List Yield) :
    (l.map Yield.toMsg).count QMsg.sentinel = 0 := by
  induction l with
  | nil => rfl
  | cons y t ih => cases y <;> simp [Yield.toMsg, List.count_cons, ih]

lemma forwarded_of_not_aborted (it : ScheduledItem) (hab : aborted it = false) :
    forwarded it = it.gen.yields.map Yield.toMsg := by
  unfold forwarded
  unfold aborted at hab
  cases h : it.abortFrom with
  | none => rfl
  | some k =>
    rw [h] at hab
    simp only [decide_eq_false_iff_not, Nat.not_lt] at hab
    simp [List.take_of_length_le hab]

lemma channelWrites_append (a b : List (Nat × QMsg)) (i : Nat) :
    channelWrites (a ++ b) i = channelWrites a i ++ channelWrites b i := by
  simp [channelWrites, List.filter_append]

lemma channelWrites_map_self (l : List QMsg) (m : Nat) :
    channelWrites (l.map (fun w => (m, w))) m = l := by
  induction l with
  | nil => rfl
  | cons w t ih => simpa [channelWrites, List.filter_cons] using ih

lemma channelWrites_map_ne (l : List QMsg) (m i : Nat) (h : (m == i) = false) :
    channelWrites (l.map (fun w => (m, w))) i = [] := by
  induction l with
  | nil => rfl
  | cons w t ih => simpa [channelWrites, List.filter_cons, h] using ih

lemma channelWrites_from_lt (items : List ScheduledItem) :
    ∀ (m i : Nat), i < m → channelWrites (workerTraceFrom m items) i = [] := by
  induction items with
  | nil => intro m i _; rfl
  | cons it rest ih =>
    intro m i him
    rw [workerTraceFrom, channelWrites_append,
      channelWrites_map_ne _ _ _ (by simpa using Nat.ne_of_gt him),
      ih (m + 1) i (Nat.lt_succ_of_lt him)]
    rfl

lemma channelWrites_at (items : List ScheduledItem) :
    ∀ (m k : Nat) (hk : k < items.length),
      channelWrites (workerTraceFrom m items) (m + k) = runItem (items.get ⟨k, hk⟩) := by
  induction items with
  | nil => intro m k hk; exact absurd hk (Nat.not_lt_zero k)
  | cons it rest ih =>
    intro m k hk
    cases k with
    | zero =>
      rw [workerTraceFrom, channelWrites_append]
      rw [Nat.add_zero, channelWrites_map_self,
        channelWrites_from_lt rest (m + 1) m (Nat.lt_succ_self m), List.append_nil]
      rfl
    | succ k =>
      rw [workerTraceFrom, channelWrites_append,
        channelWrites_map_ne _ _ _ (by simp)]
      have hroll : m + (k + 1) = (m + 1) + k := by omega
      rw [List.nil_append, hroll, ih (m + 1) k (Nat.lt_of_succ_lt_succ hk)]
      rfl

lemma trace_take_order (items : List ScheduledItem) :
    ∀ (m i j n : Nat), m ≤ i → i < j →
      hasWriteTo j ((workerTraceFrom m items).take n) = true →
      hasSentinelOf i ((workerTraceFrom m items).take n) = true := by
  induction items with
  | nil =>
    intro m i j n _ _ h
    simp [workerTraceFrom, hasWriteTo] at h
  | cons it rest ih =>
    intro m i j n hmi hij h
    rw [workerTraceFrom, List.take_append_eq_append_take] at h ⊢
    rw [hasWriteTo, List.any_append] at h
    rw [hasSentinelOf, List.any_append]
    have hA : ((((runItem it).map (fun w => (m, w))).take n).any (fun p => p.1 == j)) = false := by
      cases hAh : ((((runItem it).map (fun w => (m, w))).take n).any (fun p => p.1 == j)) with
      | false => rfl
      | true =>
        exfalso
        obtain ⟨p, hp, hpj⟩ := List.any_eq_true.mp hAh
        obtain ⟨w, _, rfl⟩ := List.mem_map.mp (List.take_subset _ _ hp)
        simp only [beq_iff_eq] at hpj
        omega
    rw [hA, Bool.false_or] at h
    have hlen : ((runItem it).map (fun w => (m, w))).length < n := by
      by_contra hle
      push_neg at hle
      rw [Nat.sub_eq_zero_of_le hle] at h
      simp at h
    rcases Nat.eq_or_lt_of_le hmi with rfl | hlt
    · rw [Bool.or_eq_true]
      left
      rw [List.take_of_length_le (Nat.le_of_lt hlen)]
      rw [List.any_eq_true]
      exact ⟨(m, QMsg.sentinel),
        List.mem_map.mpr ⟨QMsg.sentinel, sentinel_mem_runItem it, rfl⟩, by simp⟩
    · rw [Bool.or_eq_true]
      right
      exact ih (m + 1) i j _ hlt hij h

lemma runItem_err (it : ScheduledItem) (e : String) (he : it.gen.err = some e)
    (hab : aborted it = false) :
    runItem it = it.gen.yields.map Yield.toMsg ++
      [QMsg.errorFrame ⟨e, "internal_error", none, none⟩, QMsg.sentinel] := by
  unfold runItem
  rw [forwarded_of_not_aborted it hab, hab, he]
  simp

lemma runItem_clean (it : ScheduledItem) (he : it.gen.err = none)
    (hab : aborted it = false) :
    runItem it = it.gen.yields.map Yield.toMsg ++ [QMsg.sentinel] := by
  unfold runItem
  rw [forwarded_of_not_aborted it hab, hab, he]
  simp

lemma streamOut_append :
    ∀ (l : List QMsg), (∀ m ∈ l, m ≠ QMsg.sentinel) → ∀ (r : List QMsg),
      streamOut (l ++ r) = l.map StreamItem.frame ++ streamOut r := by
  intro l
  induction l with
  | nil => intro _ r; simp
  | cons m t ih =>
    intro hl r
    have ht : ∀ x ∈ t, x ≠ QMsg.sentinel := fun x hx => hl x (List.mem_cons_of_mem m hx)
    cases m with
    | sentinel => exact absurd rfl (hl QMsg.sentinel (List.mem_cons_self _ _))
    | chunk c f =>
      simp only [List.cons_append, streamOut, List.map_cons]
      rw [List.append_eq, ih ht r]
    | errorFrame e =>
      simp only [List.cons_append, streamOut, List.map_cons]
      rw [List.append_eq, ih ht r]
    | rawError s =>
      simp only [List.cons_append, streamOut, List.map_cons]
      rw [List.append_eq, ih ht r]

lemma map_toMsg_no_sentinel (l : List Yield) :
    ∀ m ∈ l.map Yield.toMsg, m ≠ QMsg.sentinel := by
  intro m hm
  obtain ⟨y, _, rfl⟩ := List.mem_map.mp hm
  cases y <;> simp [Yield.toMsg]

lemma preSentinel_append (l : List QMsg) (hl : ∀ m ∈ l, m ≠ QMsg.sentinel)
    (r : List QMsg) : preSentinel (l ++ r) = l ++ preSentinel r := by
  unfold preSentinel
  rw [List.takeWhile_append_of_pos]
  intro a ha
  simpa using hl a ha

lemma getLast?_getD_cons {α : Type} (a d : α) (t : List α) :
    ((a :: t).getLast?).getD d = (t.getLast?).getD a := by
  cases t with
  | nil => rfl
  | cons b bs =>
    rw [List.getLast?_cons_cons]
    obtain ⟨x, hx⟩ :=
      Option.isSome_iff_exists.mp ((@List.getLast?_isSome _ (b :: bs)).mpr (by simp))
    simp [hx]

lemma accum_spec : ∀ (l : List QMsg) (c0 : String) (f0 : Option String),
    l.foldl accumStep (c0, f0) =
      (c0 ++ (chunkContents l).foldr (fun a b => a ++ b) "",
       ((chunkFinishes l).getLast?).getD f0) := by
  intro l
  induction l with
  | nil =>
    intro c0 f0
    simp [chunkContents, chunkFinishes]
  | cons m t ih =>
    intro c0 f0
    cases m with
    | chunk mc mf =>
      simp only [List.foldl_cons, accumStep, chunkContents, chunkFinishes,
        List.filterMap_cons, List.foldr_cons]
      rw [ih, getLast?_getD_cons]
      simp only [chunkContents, chunkFinishes]
      rw [String.append_assoc]
    | errorFrame e =>
      simp only [List.foldl_cons, accumStep, chunkContents, chunkFinishes,
        List.filterMap_cons]
      exact ih c0 f0
    | rawError s2 =>
      simp only [List.foldl_cons, accumStep, chunkContents, chunkFinishes,
        List.filterMap_cons]
      exact ih c0 f0
    | sentinel =>
      simp only [List.foldl_cons, accumStep, chunkContents, chunkFinishes,
        List.filterMap_cons]
      exact ih c0 f0

/-! ### Claim theorems -/

/-- C5: for every operation batch containing a status operation with value
CONTENT_FILTER, when anti-censorship suppression is enabled, the decoder
emits finishReason stop, first closes any open thinking segment (appending
the closing marker exactly when pass-through is enabled), and processes no
further operations of that batch: the operations after the content-filter
operation never influence the result, so no text from them is emitted.  The
first conjunct states that everything after the content-filter operation is
discarded; the second computes the effect of the operation itself. -/
theorem content_filter_suppresses_batch (sd : Bool) (acc : OpsAcc)
    (pre post : List MVal) (oo : Option String) :
    processOps ⟨true, sd⟩ acc (pre ++
        MVal.mdict (some "status") oo (some (MVal.str "CONTENT_FILTER")) none none :: post) =
      processOps ⟨true, sd⟩ acc (pre ++
        [MVal.mdict (some "status") oo (some (MVal.str "CONTENT_FILTER")) none none])
    ∧ processOp ⟨true, sd⟩ acc
        (MVal.mdict (some "status") oo (some (MVal.str "CONTENT_FILTER")) none none) =
      ({ st := ⟨acc.st.fragment_types_list, false⟩
         atoms := acc.atoms ++
           (if acc.st.thinking_active && sd then [Atom.closeThink] else [])
         finish := some "stop" }, true) := by
  constructor
  · exact processOps_break ⟨true, sd⟩
      (MVal.mdict (some "status") oo (some (MVal.str "CONTENT_FILTER")) none none)
      (fun acc2 => rfl) pre acc post
  · rfl

/-- C10: for every operation with path status and value CONTENT_FILTER, when
anti-censorship suppression is disabled, the decoder emits no text and no
finish reason for that operation and continues with the remaining operations
of the batch unchanged; among status operations only the value FINISHED
produces a finish reason (second conjunct, which computes every status
operation's effect under disabled suppression). -/
theorem content_filter_ignored_when_disabled (sd : Bool) (acc : OpsAcc)
    (pre post : List MVal) (oo : Option String) :
    processOps ⟨false, sd⟩ acc (pre ++
        MVal.mdict (some "status") oo (some (MVal.str "CONTENT_FILTER")) none none :: post) =
      processOps ⟨false, sd⟩ acc (pre ++ post)
    ∧ ∀ (vs : String),
        processOp ⟨false, sd⟩ acc (MVal.mdict (some "status") oo (some (MVal.str vs)) none none) =
          ((if vs == "FINISHED" then
              { st := ⟨acc.st.fragment_types_list, false⟩
                atoms := acc.atoms ++
                  (if acc.st.thinking_active && sd then [Atom.closeThink] else [])
                finish := some "stop" }
            else acc), false) := by
  constructor
  · exact processOps_skip ⟨false, sd⟩
      (MVal.mdict (some "status") oo (some (MVal.str "CONTENT_FILTER")) none none)
      (fun acc2 => rfl) pre acc post
  · intro vs
    rfl

/-- C8: for every sequence of data lines, every decoder state and both
settings of each toggle, no atom contributing to any emitted content is
sourced from a fragment whose registered type is SEARCH — neither inline
initial content of a fragments-append descriptor nor a later content update
addressed to that fragment's index — so search content never appears in any
emitted ChunkFrame (whose content is the concatenation of these atoms). -/
theorem search_content_never_emitted (s : DriverSettings) (st : DecState) (ds : List MVal) :
    ((((processDatas s st ds).2.map Prod.fst).flatten).all (fun a => !searchSourced a)) = true :=
  processDatas_noSearch s ds st

/-- C9: for every sequence of data lines and every decoder state, when the
thinking pass-through toggle (send_deepthink) is disabled, no atom
contributing to any emitted content is thinking-related: no opening or
closing marker, no THINK-fragment text (inline or by content update), and no
direct update that arrived while the thinking flag was active, covering the
closing on FINISHED and content-filter status as well. -/
theorem thinking_fully_gated (ac : Bool) (st : DecState) (ds : List MVal) :
    ((((processDatas ⟨ac, false⟩ st ds).2.map Prod.fst).flatten).all (fun a => !thinkSourced a)) = true :=
  processDatas_noThink ⟨ac, false⟩ rfl ds st

/-- C2: for every queue of work items, the worker runs them strictly in
enqueue order: within every prefix of the global write trace, a write to a
later channel j can only appear once the sentinel of every earlier channel i
has already been written, i.e. channel j receives no frames until channel
i's termination sentinel is in the trace.  The single sequential loop body
is what makes the trace have this shape, so at most one generation session
is active at any instant. -/
theorem worker_strict_fifo (items : List ScheduledItem) (i j n : Nat) (hij : i < j)
    (h : hasWriteTo j ((workerTrace items).take n) = true) :
    hasSentinelOf i ((workerTrace items).take n) = true :=
  trace_take_order items 0 i j n (Nat.zero_le i) hij h

theorem worker_strict_fifo_witness :
    hasSentinelOf 0 ((workerTrace [⟨⟨[Yield.chunk (some "a") none], none⟩, none⟩,
      ⟨⟨[Yield.chunk (some "b") none], none⟩, none⟩]).take 3) = true :=
  worker_strict_fifo [⟨⟨[Yield.chunk (some "a") none], none⟩, none⟩,
    ⟨⟨[Yield.chunk (some "b") none], none⟩, none⟩] 0 1 3 (by decide) (by decide)

/-- C3: for every work item whose generation raises (and whose forwarding
loop was not already broken by an abort), the worker writes the forwarded
frames, then a single structured error frame carrying the message with type
internal_error and null param and code, whose finishReason projection is
absent, then the sentinel; and the worker continues: every later channel
still receives exactly its own run's writes. -/
theorem worker_per_item_error_handling (it : ScheduledItem) (rest : List ScheduledItem)
    (e : String) (he : it.gen.err = some e) (hab : aborted it = false) :
    channelWrites (workerTrace (it :: rest)) 0 =
      it.gen.yields.map Yield.toMsg ++
        [QMsg.errorFrame ⟨e, "internal_error", none, none⟩, QMsg.sentinel]
    ∧ (QMsg.errorFrame ⟨e, "internal_error", none, none⟩).finishReason = none
    ∧ ∀ (j : Fin rest.length),
        channelWrites (workerTrace (it :: rest)) (j.val + 1) = runItem (rest.get j) := by
  refine ⟨?_, rfl, ?_⟩
  · have h0 := channelWrites_at (it :: rest) 0 0 (by simp)
    rw [Nat.add_zero] at h0
    rw [workerTrace, h0]
    exact runItem_err it e he hab
  · intro j
    have hj := channelWrites_at (it :: rest) 0 (j.val + 1) (by simp)
    rw [Nat.zero_add] at hj
    rw [workerTrace, hj]
    rfl

theorem worker_per_item_error_handling_witness :
    channelWrites (workerTrace [⟨⟨[Yield.chunk (some "x") none], some "boom"⟩, none⟩,
        ⟨⟨[Yield.chunk (some "y") (some "stop")], none⟩, none⟩]) 0 =
      [QMsg.chunk (some "x") none,
       QMsg.errorFrame ⟨"boom", "internal_error", none, none⟩, QMsg.sentinel] :=
  (worker_per_item_error_handling ⟨⟨[Yield.chunk (some "x") none], some "boom"⟩, none⟩
    [⟨⟨[Yield.chunk (some "y") (some "stop")], none⟩, none⟩] "boom" rfl rfl).1

/-- C4: for every generation and every abort schedule that some per-frame
check observes (the signal is set from check index k on, and the generator
is still yielding then), the item's channel receives exactly the frames
forwarded before that check point followed by the sentinel — no frame after
the check point — and the sentinel is written exactly once. -/
theorem abort_stops_forwarding (gen : GenSpec) (k : Nat) (hk : k < gen.yields.length) :
    runItem ⟨gen, some k⟩ = (gen.yields.take k).map Yield.toMsg ++ [QMsg.sentinel]
    ∧ (runItem ⟨gen, some k⟩).count QMsg.sentinel = 1 := by
  have hab : aborted ⟨gen, some k⟩ = true := by
    simp [aborted, hk]
  have h1 : runItem ⟨gen, some k⟩ = (gen.yields.take k).map Yield.toMsg ++ [QMsg.sentinel] := by
    unfold runItem
    rw [hab]
    simp [forwarded]
  refine ⟨h1, ?_⟩
  rw [h1, List.count_append, count_sentinel_map_toMsg]
  rfl

theorem abort_stops_forwarding_witness :
    runItem ⟨⟨[Yield.chunk (some "a") none, Yield.chunk (some "b") none], none⟩, some 1⟩ =
      [QMsg.chunk (some "a") none, QMsg.sentinel]
    ∧ (runItem ⟨⟨[Yield.chunk (some "a") none, Yield.chunk (some "b") none], none⟩,
        some 1⟩).count QMsg.sentinel = 1 :=
  abort_stops_forwarding ⟨[Yield.chunk (some "a") none, Yield.chunk (some "b") none], none⟩ 1
    (by decide)

/-- C7 (amended): for every channel content, the non-streaming FinalResponse
concatenates the delta contents of the frames carrying a choices entry
delivered before the sentinel, in order; its finish_reason is the
finish_reason of the LAST such frame — each frame overwrites the previous
value, null included — with stop substituted when that final value is null
or empty.  (The claim's last-non-null reading is refuted by
final_finish_reason_overwritten below.) -/
theorem final_response_accumulation (msgs : List QMsg) :
    finalResponse msgs =
      ((chunkContents (preSentinel msgs)).foldr (fun a b => a ++ b) "",
       pyOr (lastChoicesFinish (preSentinel msgs)) "stop") := by
  unfold finalResponse lastChoicesFinish
  rw [accum_spec]
  simp

/-- C7, counterexample to the claim as stated: a frame with finishReason
length followed by a frame with null finishReason.  The last NON-NULL
finishReason is length, but the source's accumulator ends with null
(overwritten by the second frame) and defaults to stop. -/
theorem final_finish_reason_overwritten :
    finalResponse [QMsg.chunk (some "a") (some "length"), QMsg.chunk (some "b") none,
        QMsg.sentinel] = ("ab", "stop")
    ∧ lastNonNullFinish [QMsg.chunk (some "a") (some "length"), QMsg.chunk (some "b") none] =
        some "length"
    ∧ ("stop" : String) ≠ "length" := by
  refine ⟨?_, ?_, ?_⟩ <;> decide

/-- C6, counterexample to the claim as stated: a non-streaming request whose
work item fails before yielding anything.  The channel does carry exactly one
structured error frame, but the accumulation loop skips it (the frame has no
choices entry), so the caller receives a response indistinguishable from a
successful generation that produced no output — an error-free result for a
failed WorkItem, with no error payload. -/
theorem nonstreaming_error_swallowed :
    finalResponse (runItem ⟨⟨[], some "boom"⟩, none⟩) = ("", "stop")
    ∧ finalResponse (runItem ⟨⟨[], some "boom"⟩, none⟩) =
        finalResponse (runItem ⟨⟨[], none⟩, none⟩)
    ∧ (runItem ⟨⟨[], some "boom"⟩, none⟩).count
        (QMsg.errorFrame ⟨"boom", "internal_error", none, none⟩) = 1 := by
  refine ⟨?_, ?_, ?_⟩ <;> decide

/-- C6 (amended): for every failed work item whose caller does not
disconnect, a STREAMING caller receives the forwarded frames, then exactly
one structured error payload, then stream termination; a NON-STREAMING
caller instead receives a FinalResponse aggregated from only the chunk
frames delivered before the failure — the error frame carries no choices
entry and is skipped — so its content may be silently truncated or empty
with finish_reason defaulting to stop and no error indication
(counterexample nonstreaming_error_swallowed). -/
theorem caller_terminal_delivery (it : ScheduledItem) (e : String)
    (he : it.gen.err = some e) (hab : aborted it = false) :
    streamOut (runItem it) =
      (it.gen.yields.map Yield.toMsg).map StreamItem.frame ++
        [StreamItem.frame (QMsg.errorFrame ⟨e, "internal_error", none, none⟩),
         StreamItem.doneMarker]
    ∧ finalResponse (runItem it) =
        ((chunkContents (it.gen.yields.map Yield.toMsg)).foldr (fun a b => a ++ b) "",
         pyOr (lastChoicesFinish (it.gen.yields.map Yield.toMsg)) "stop") := by
  have hr := runItem_err it e he hab
  constructor
  · rw [hr, streamOut_append (it.gen.yields.map Yield.toMsg) (map_toMsg_no_sentinel _)]
    rfl
  · have hsplit : it.gen.yields.map Yield.toMsg ++
        [QMsg.errorFrame ⟨e, "internal_error", none, none⟩, QMsg.sentinel] =
        (it.gen.yields.map Yield.toMsg ++
          [QMsg.errorFrame ⟨e, "internal_error", none, none⟩]) ++ [QMsg.sentinel] := by
      simp
    have hpre : preSentinel ((it.gen.yields.map Yield.toMsg ++
        [QMsg.errorFrame ⟨e, "internal_error", none, none⟩]) ++ [QMsg.sentinel]) =
        it.gen.yields.map Yield.toMsg ++ [QMsg.errorFrame ⟨e, "internal_error", none, none⟩] := by
      rw [preSentinel_append]
      · simp [preSentinel, List.takeWhile]
      · intro m hm
        rcases List.mem_append.mp hm with h1 | h1
        · exact map_toMsg_no_sentinel _ m h1
        · simp only [List.mem_singleton] at h1
          subst h1
          simp
    unfold finalResponse
    rw [hr, hsplit, hpre, accum_spec]
    simp [chunkContents, chunkFinishes, lastChoicesFinish, List.filterMap_append]

theorem caller_terminal_delivery_witness :
    streamOut (runItem ⟨⟨[Yield.chunk (some "hi") none], some "E"⟩, none⟩) =
      [StreamItem.frame (QMsg.chunk (some "hi") none),
       StreamItem.frame (QMsg.errorFrame ⟨"E", "internal_error", none, none⟩),
       StreamItem.doneMarker] :=
  (caller_terminal_delivery ⟨⟨[Yield.chunk (some "hi") none], some "E"⟩, none⟩ "E" rfl rfl).1

/-! ### The scenario of claim C1 -/

/-- The two data lines of the scenario, as seen by the decoder: one
fragments APPEND carrying a single RESPONSE descriptor with inline content
Hello, then one status FINISHED operation. -/
def scenarioFrames : List MVal :=
  [MVal.mdict (some "fragments") (some "APPEND")
      (some (MVal.list [MVal.mdict none none none (some "RESPONSE") (some "Hello")])) none none,
   MVal.mdict (some "status") none (some (MVal.str "FINISHED")) none none]

/-- The message of the TypeError raised when API.worker calls
driver.generate_response with the keyword argument abort_event, which the
function does not declare (paraphrase of the Python text; the worker stores
str(e) of whatever was raised). -/
def typeErrorMsg : String :=
  "generate_response() got an unexpected keyword argument abort_event"

/-- C1: the scenario cannot return the FinalResponse the claim expects,
because the pipeline is broken at the worker-to-driver call.  Conjuncts:
the worker passes a keyword argument (abort_event) that
DeepSeekDriver.generate_response does not declare, so Python raises
TypeError at the call, before any backend interaction; the per-item handler
then writes only the structured error frame and the sentinel; the
non-streaming accumulation of that channel yields content empty and
finish_reason stop; whereas the decoder-to-accumulator pipeline the claim
describes would have produced content Hello with finish_reason stop had the
generation run — so the observable result differs from the claimed one. -/
theorem scenario_blocked_by_kwarg_typeerror :
    workerGenerateResponseKwargs.all (fun k => generateResponseParams.contains k) = false
    ∧ runItem ⟨⟨[], some typeErrorMsg⟩, none⟩ =
        [QMsg.errorFrame ⟨typeErrorMsg, "internal_error", none, none⟩, QMsg.sentinel]
    ∧ finalResponse (runItem ⟨⟨[], some typeErrorMsg⟩, none⟩) = ("", "stop")
    ∧ finalResponse (decoderMsgs ⟨false, false⟩ ⟨[], false⟩ scenarioFrames ++ [QMsg.sentinel]) =
        ("Hello", "stop")
    ∧ ("" : String) ≠ "Hello" := by
  refine ⟨?_, ?_, ?_, ?_, ?_⟩ <;> decide

end Bridge
